import Mathlib

/-!
Shallow embedding of the ZIP UDP bank server/client repository.

The definitions below translate, from the C++ source, the pieces of the
program the verified claims are about:

* `src/server/include/server.h` — `ClientInfo`, `CLIENT_INITIAL_BALANCE`;
* `src/shared/include/locked_map.h` — the `LockedMap` operations `insert`,
  `read`, `write` and `atomic_pair_operation` (sequential semantics of the
  per-entry reader/writer-locked map, keyed by client IP), plus the
  lock-acquisition-order model used for the deadlock-freedom claim;
* `src/server/src/server.cpp` — `handle_client_discovery`,
  `handle_transaction`, the listening-loop size check, and the global bank
  statistics;
* `src/shared/src/udp_socket.cpp` — the datagram truncation behaviour of
  `receive`;
* `src/client/src/client.cpp` — the user-input loop's `next_request_id`
  counter;
* `src/server/main.cpp` — command-line port parsing.

Machine integers (`uint32_t`, `uint64_t`) are modelled as `Nat` with
explicit reduction modulo `2 ^ 32` / `2 ^ 64` at the operations where the
C++ code can overflow or wrap.
-/

namespace ZIP

/-- Modulus of a `uint32_t`. -/
def U32 : Nat := 2 ^ 32

/-- Modulus of a `uint64_t`. -/
def U64 : Nat := 2 ^ 64

/-- Wrapping `uint32_t` addition (C++ `a + b` on `uint32_t`). -/
def add32 (a b : Nat) : Nat := (a + b) % U32

/-- Wrapping `uint32_t` subtraction (C++ `a - b` on `uint32_t`). -/
def sub32 (a b : Nat) : Nat := (a + (U32 - b % U32)) % U32

/-- Wrapping `uint64_t` addition (C++ `a + b` on `uint64_t`). -/
def add64 (a b : Nat) : Nat := (a + b) % U64

/-- Initial balance of a newly registered client (`server.h`, line 8). -/
def CLIENT_INITIAL_BALANCE : Nat := 100

/-- Per-client record kept by the server (`server.h`, lines 16-20). -/
structure ClientInfo where
  last_processed_request_id : Nat := 0
  balance : Nat := CLIENT_INITIAL_BALANCE
deriving DecidableEq, Repr

/-- The value a default-constructed `ClientInfo()` takes in C++. -/
def defaultClientInfo : ClientInfo := {}

/-- The server's client table, keyed by source IPv4 address (a `uint32_t`).
`LockedMap<uint32_t, ClientInfo>` is an unordered map; sequentially it is a
finite association list where a key's binding is its first occurrence. -/
abbrev Clients := List (Nat × ClientInfo)

/-- Sequential semantics of `LockedMap::read` / `get_entry` lookup
(`locked_map.h`, lines 208-213 and 296-309): find the entry for a key. -/
def lookupClient : Clients → Nat → Option ClientInfo
  | [], _ => none
  | (k, v) :: rest, key => if key = k then some v else lookupClient rest key

/-- Replace the value stored at a key's entry, leaving the map unchanged if
the key is absent (the in-place `entry->value = value` store). -/
def storeClient : Clients → Nat → ClientInfo → Clients
  | [], _, _ => []
  | (k, v) :: rest, key, nv =>
      if key = k then (k, nv) :: rest else (k, v) :: storeClient rest key nv

/-- Sequential semantics of `LockedMap::insert` (`locked_map.h`, lines
273-288): insert a fresh entry iff the key is absent; the boolean reports
whether this call created the entry. -/
def insertClient (m : Clients) (key : Nat) (v : ClientInfo) : Bool × Clients :=
  match lookupClient m key with
  | some _ => (false, m)
  | none => (true, (key, v) :: m)

/-- Sequential semantics of `LockedMap::write` (`locked_map.h`, lines
311-324): false iff the key is absent, otherwise replace the value. -/
def writeClient (m : Clients) (key : Nat) (v : ClientInfo) : Bool × Clients :=
  match lookupClient m key with
  | some _ => (true, storeClient m key v)
  | none => (false, m)

/-- Sequential semantics of `LockedMap::atomic_pair_operation`
(`locked_map.h`, lines 326-383) instantiated with the transfer lambda of
`Server::handle_transaction` (`server.cpp`, lines 186-193):
`src.balance -= V; dest.balance += V; client_new_balance = src.balance`.
Returns `none` when either key is absent (the C++ `return false` path).
When both keys resolve to the same entry the lambda runs with both
references aliasing one record, exactly as the C++ passes the same
reference twice; the lock-ordering performed by the C++ between the two
distinct entries has no sequential effect on the stored values. -/
def atomic_pair_transfer (m : Clients) (key1 key2 V : Nat) :
    Option (Clients × Nat) :=
  match lookupClient m key1, lookupClient m key2 with
  | some e1, some e2 =>
      if key1 = key2 then
        let b1 := sub32 e1.balance V
        let b2 := add32 b1 V
        some (storeClient m key1 { e1 with balance := b2 }, b2)
      else
        let src := { e1 with balance := sub32 e1.balance V }
        let dst := { e2 with balance := add32 e2.balance V }
        some (storeClient (storeClient m key1 src) key2 dst, src.balance)
  | _, _ => none

/-- Reply packet types the server can produce (`packet.h`, lines 12-29). -/
inductive ReplyType where
  | CLIENT_DISCOVERY_ACK
  | TRANSACTION_ACK
  | INSUFFICIENT_BALANCE_ACK
  | INVALID_CLIENT_ACK
  | ERROR_ACK
deriving DecidableEq, Repr

/-- A reply packet as built by `Packet::create_reply` (`packet.h`, lines
155-161): type tag, echoed request id, and the balance payload. -/
structure Reply where
  type : ReplyType
  request_id : Nat
  new_balance : Nat
deriving DecidableEq, Repr

/-- Factory `Packet::create_reply(type, request_id, balance)`. -/
def create_reply (t : ReplyType) (request_id balance : Nat) : Reply :=
  { type := t, request_id := request_id, new_balance := balance }

/-- The request-relevant fields of a `TRANSACTION_REQUEST` packet
(`packet.h`, lines 37-40 and 98-116). All three fields are `uint32_t` on
the wire. -/
structure RequestPacket where
  request_id : Nat
  destination_ip : Nat
  value : Nat
deriving DecidableEq, Repr

/-- The server's mutable state: the client table plus the global bank
statistics (`server.cpp`, lines 9-13; `server.h`, lines 127-132).
`num_transactions` is a `uint32_t`; the other two statistics are
`uint64_t`. -/
structure ServerState where
  clients : Clients
  num_transactions : Nat
  total_transferred : Nat
  total_balance : Nat
deriving DecidableEq, Repr

/-- Server state at startup: no clients, all statistics zero
(`server.cpp`, lines 9-13). -/
def initialServerState : ServerState :=
  { clients := [], num_transactions := 0, total_transferred := 0,
    total_balance := 0 }

/-- Sequential semantics of `Server::handle_client_discovery`
(`server.cpp`, lines 83-105). Returns the new state and the reply sent. -/
def handle_client_discovery (s : ServerState) (client_ip : Nat) :
    ServerState × Reply :=
  let ins := insertClient s.clients client_ip defaultClientInfo
  if ins.1 then
    ({ s with
        clients := ins.2,
        total_balance := add64 s.total_balance CLIENT_INITIAL_BALANCE },
     create_reply .CLIENT_DISCOVERY_ACK
       defaultClientInfo.last_processed_request_id defaultClientInfo.balance)
  else
    match lookupClient s.clients client_ip with
    | some client_info =>
        (s, create_reply .CLIENT_DISCOVERY_ACK
              client_info.last_processed_request_id client_info.balance)
    | none =>
        -- Unreachable: insert returned false, so the key is present.
        (s, create_reply .CLIENT_DISCOVERY_ACK 0 0)

/-- Sequential semantics of `Server::handle_transaction` (`server.cpp`,
lines 109-213). `src_client_ip` is the sender's IP taken from the UDP
datagram; the packet carries the request id, destination IP and value.
Returns the new state and the reply, `none` when the code returns without
replying (the two unreachable failure branches). -/
def handle_transaction (s : ServerState) (src_client_ip : Nat)
    (packet : RequestPacket) : ServerState × Option Reply :=
  let dest_client_ip := packet.destination_ip
  match lookupClient s.clients src_client_ip with
  | none =>
      (s, some (create_reply .ERROR_ACK packet.request_id 0))
  | some src0 =>
      if packet.request_id ≤ src0.last_processed_request_id then
        (s, some (create_reply .TRANSACTION_ACK
              src0.last_processed_request_id src0.balance))
      else
        let src_client :=
          { src0 with last_processed_request_id := packet.request_id }
        let w := writeClient s.clients src_client_ip src_client
        if w.1 = false then
          (s, none)
        else
          let s1 := { s with clients := w.2 }
          if packet.value = 0 then
            (s1, some (create_reply .TRANSACTION_ACK packet.request_id
                  src_client.balance))
          else
            match lookupClient w.2 dest_client_ip with
            | none =>
                (s1, some (create_reply .INVALID_CLIENT_ACK
                      src_client.last_processed_request_id src_client.balance))
            | some _ =>
                if src_client_ip = dest_client_ip then
                  (s1, some (create_reply .TRANSACTION_ACK
                        src_client.last_processed_request_id
                        src_client.balance))
                else if src_client.balance < packet.value then
                  (s1, some (create_reply .INSUFFICIENT_BALANCE_ACK
                        src_client.last_processed_request_id
                        src_client.balance))
                else
                  match atomic_pair_transfer w.2 src_client_ip dest_client_ip
                      packet.value with
                  | none => (s1, none)
                  | some (clients2, client_new_balance) =>
                      ({ clients := clients2,
                         num_transactions := add32 s.num_transactions 1,
                         total_transferred :=
                           add64 s.total_transferred packet.value,
                         total_balance := s.total_balance },
                       some (create_reply .TRANSACTION_ACK
                         src_client.last_processed_request_id
                         client_new_balance))

/-- Sum of all balances stored in the client table. -/
def sumBalances (m : Clients) : Nat := (m.map (fun kv => kv.2.balance)).sum

/-- Number of registered clients (the client table never shrinks). -/
def numClients (m : Clients) : Nat := m.length

-- ===== Association-list helper lemmas =====

theorem lookup_storeClient_self {m : Clients} {key : Nat} {e v : ClientInfo}
    (h : lookupClient m key = some e) :
    lookupClient (storeClient m key v) key = some v := by
  induction m with
  | nil => simp [lookupClient] at h
  | cons kv rest ih =>
      obtain ⟨k, w⟩ := kv
      by_cases hk : key = k
      · subst hk
        simp [storeClient, lookupClient]
      · simp [storeClient, lookupClient, hk] at h ⊢
        exact ih h

theorem lookup_storeClient_ne {m : Clients} {key key' : Nat} {v : ClientInfo}
    (h : key' ≠ key) :
    lookupClient (storeClient m key v) key' = lookupClient m key' := by
  induction m with
  | nil => simp [storeClient]
  | cons kv rest ih =>
      obtain ⟨k, w⟩ := kv
      by_cases hk : key = k
      · subst hk
        simp [storeClient, lookupClient, h]
      · by_cases hk' : key' = k
        · subst hk'
          simp [storeClient, lookupClient, hk]
        · simp [storeClient, lookupClient, hk, hk']
          exact ih

theorem length_storeClient (m : Clients) (key : Nat) (v : ClientInfo) :
    (storeClient m key v).length = m.length := by
  induction m with
  | nil => simp [storeClient]
  | cons kv rest ih =>
      obtain ⟨k, w⟩ := kv
      by_cases hk : key = k
      · simp [storeClient, hk]
      · simp [storeClient, hk, ih]

theorem sum_storeClient {m : Clients} {key : Nat} {e v : ClientInfo}
    (h : lookupClient m key = some e) :
    sumBalances (storeClient m key v) + e.balance
      = sumBalances m + v.balance := by
  induction m with
  | nil => simp [lookupClient] at h
  | cons kv rest ih =>
      obtain ⟨k, w⟩ := kv
      by_cases hk : key = k
      · subst hk
        simp [lookupClient] at h
        subst h
        simp [storeClient, sumBalances]
        omega
      · simp [lookupClient, hk] at h
        have := ih h
        simp [storeClient, hk, sumBalances] at this ⊢
        omega

theorem balance_le_sum {m : Clients} {key : Nat} {e : ClientInfo}
    (h : lookupClient m key = some e) : e.balance ≤ sumBalances m := by
  induction m with
  | nil => simp [lookupClient] at h
  | cons kv rest ih =>
      obtain ⟨k, w⟩ := kv
      by_cases hk : key = k
      · subst hk
        simp [lookupClient] at h
        subst h
        simp [sumBalances]
      · simp [lookupClient, hk] at h
        have := ih h
        simp [sumBalances] at this ⊢
        omega

theorem pair_balance_le_sum {m : Clients} {k1 k2 : Nat} {e1 e2 : ClientInfo}
    (hne : k1 ≠ k2) (h1 : lookupClient m k1 = some e1)
    (h2 : lookupClient m k2 = some e2) :
    e1.balance + e2.balance ≤ sumBalances m := by
  induction m with
  | nil => simp [lookupClient] at h1
  | cons kv rest ih =>
      obtain ⟨k, w⟩ := kv
      by_cases hk1 : k1 = k
      · subst hk1
        simp [lookupClient] at h1
        subst h1
        simp [lookupClient, Ne.symm hne] at h2
        have := balance_le_sum h2
        simp [sumBalances] at this ⊢
        omega
      · by_cases hk2 : k2 = k
        · subst hk2
          simp [lookupClient, hk1] at h1
          simp [lookupClient] at h2
          subst h2
          have := balance_le_sum h1
          simp [sumBalances] at this ⊢
          omega
        · simp [lookupClient, hk1, hk2] at h1 h2
          have := ih h1 h2
          simp [sumBalances] at this ⊢
          omega

-- ===== Wrapping-arithmetic helper lemmas =====

theorem sub32_exact {a b : Nat} (hba : b ≤ a) (ha : a < U32) :
    sub32 a b = a - b := by
  have hb : b % U32 = b := Nat.mod_eq_of_lt (lt_of_le_of_lt hba ha)
  unfold sub32
  rw [hb]
  have h1 : a + (U32 - b) = (a - b) + U32 := by
    have : b ≤ U32 := le_of_lt (lt_of_le_of_lt hba ha)
    omega
  rw [h1, Nat.add_mod_right]
  exact Nat.mod_eq_of_lt (by omega)

theorem add32_exact {a b : Nat} (h : a + b < U32) : add32 a b = a + b := by
  unfold add32
  exact Nat.mod_eq_of_lt h

theorem add64_exact {a b : Nat} (h : a + b < U64) : add64 a b = a + b := by
  unfold add64
  exact Nat.mod_eq_of_lt h

-- ===== Branch characterizations of the transaction handler =====

theorem step_unknown_source {s : ServerState} {src_ip : Nat}
    {p : RequestPacket} (hsrc : lookupClient s.clients src_ip = none) :
    handle_transaction s src_ip p
      = (s, some (create_reply .ERROR_ACK p.request_id 0)) := by
  simp [handle_transaction, hsrc]

theorem step_duplicate {s : ServerState} {src_ip : Nat} {p : RequestPacket}
    {c : ClientInfo} (hsrc : lookupClient s.clients src_ip = some c)
    (hdup : p.request_id ≤ c.last_processed_request_id) :
    handle_transaction s src_ip p
      = (s, some (create_reply .TRANSACTION_ACK
            c.last_processed_request_id c.balance)) := by
  simp [handle_transaction, hsrc, hdup]

theorem step_zero_value {s : ServerState} {src_ip : Nat} {p : RequestPacket}
    {c : ClientInfo} (hsrc : lookupClient s.clients src_ip = some c)
    (hfresh : c.last_processed_request_id < p.request_id)
    (hv : p.value = 0) :
    handle_transaction s src_ip p
      = ({ s with clients := storeClient s.clients src_ip
                        ({ c with last_processed_request_id := p.request_id }) },
         some (create_reply .TRANSACTION_ACK p.request_id c.balance)) := by
  simp [handle_transaction, writeClient, hsrc, Nat.not_le.mpr hfresh, hv]

theorem step_invalid_dest {s : ServerState} {src_ip : Nat} {p : RequestPacket}
    {c : ClientInfo} (hsrc : lookupClient s.clients src_ip = some c)
    (hfresh : c.last_processed_request_id < p.request_id)
    (hv : p.value ≠ 0)
    (hdst : lookupClient (storeClient s.clients src_ip
        ({ c with last_processed_request_id := p.request_id }))
        p.destination_ip = none) :
    handle_transaction s src_ip p
      = ({ s with clients := storeClient s.clients src_ip
                        ({ c with last_processed_request_id := p.request_id }) },
         some (create_reply .INVALID_CLIENT_ACK p.request_id c.balance)) := by
  simp [handle_transaction, writeClient, hsrc, Nat.not_le.mpr hfresh, hv, hdst]

theorem step_self_transfer {s : ServerState} {src_ip : Nat}
    {p : RequestPacket} {c d : ClientInfo}
    (hsrc : lookupClient s.clients src_ip = some c)
    (hfresh : c.last_processed_request_id < p.request_id)
    (hv : p.value ≠ 0)
    (hdst : lookupClient (storeClient s.clients src_ip
        ({ c with last_processed_request_id := p.request_id }))
        p.destination_ip = some d)
    (hself : src_ip = p.destination_ip) :
    handle_transaction s src_ip p
      = ({ s with clients := storeClient s.clients src_ip
                        ({ c with last_processed_request_id := p.request_id }) },
         some (create_reply .TRANSACTION_ACK p.request_id c.balance)) := by
  subst hself
  simp [handle_transaction, writeClient, hsrc, Nat.not_le.mpr hfresh, hv, hdst]

theorem step_insufficient {s : ServerState} {src_ip : Nat} {p : RequestPacket}
    {c d : ClientInfo} (hsrc : lookupClient s.clients src_ip = some c)
    (hfresh : c.last_processed_request_id < p.request_id)
    (hv : p.value ≠ 0)
    (hdst : lookupClient (storeClient s.clients src_ip
        ({ c with last_processed_request_id := p.request_id }))
        p.destination_ip = some d)
    (hne : src_ip ≠ p.destination_ip)
    (hpoor : c.balance < p.value) :
    handle_transaction s src_ip p
      = ({ s with clients := storeClient s.clients src_ip
                        ({ c with last_processed_request_id := p.request_id }) },
         some (create_reply .INSUFFICIENT_BALANCE_ACK p.request_id
           c.balance)) := by
  simp [handle_transaction, writeClient, hsrc, Nat.not_le.mpr hfresh, hv, hdst,
    hne, hpoor]

theorem step_transfer {s : ServerState} {src_ip : Nat} {p : RequestPacket}
    {c d : ClientInfo} (hsrc : lookupClient s.clients src_ip = some c)
    (hfresh : c.last_processed_request_id < p.request_id)
    (hv : p.value ≠ 0)
    (hdst : lookupClient (storeClient s.clients src_ip
        ({ c with last_processed_request_id := p.request_id }))
        p.destination_ip = some d)
    (hne : src_ip ≠ p.destination_ip)
    (hrich : ¬ c.balance < p.value) :
    handle_transaction s src_ip p
      = ({ clients := storeClient
                        (storeClient
                          (storeClient s.clients src_ip
                            ({ c with last_processed_request_id := p.request_id }))
                          src_ip
                          { last_processed_request_id := p.request_id,
                            balance := sub32 c.balance p.value })
                        p.destination_ip
                        ({ d with balance := add32 d.balance p.value }),
           num_transactions := add32 s.num_transactions 1,
           total_transferred := add64 s.total_transferred p.value,
           total_balance := s.total_balance },
         some (create_reply .TRANSACTION_ACK p.request_id
           (sub32 c.balance p.value))) := by
  have hm1 : lookupClient (storeClient s.clients src_ip
      { c with last_processed_request_id := p.request_id }) src_ip
      = some { c with last_processed_request_id := p.request_id } :=
    lookup_storeClient_self hsrc
  simp [handle_transaction, writeClient, atomic_pair_transfer, hsrc,
    Nat.not_le.mpr hfresh, hv, hdst, hne, hrich, hm1]

-- ===== Concrete states used by witnesses =====

/-- A server state with two registered clients (IPs 1 and 2), as produced by
two fresh discoveries: both balances 100, total 200, no transactions yet. -/
def twoClientsState : ServerState :=
  { clients := [(1, {}), (2, {})], num_transactions := 0,
    total_transferred := 0, total_balance := 200 }

/-- The pair a reply carries: its echoed request id and its balance field. -/
def replyPair (r : Option Reply) : Option (Nat × Nat) :=
  Option.map (fun a => (a.request_id, a.new_balance)) r

/-- C1: a transaction request from a registered source with a fresh request
id, positive value, a registered distinct destination and sufficient balance
debits the source by V, credits the destination by V, increments
num_transactions, adds V to total_transferred, and replies TRANSACTION_ACK
carrying the request id and the source's new balance. -/
theorem C1_successful_transaction (s : ServerState) (src_ip : Nat)
    (p : RequestPacket) (src0 dst0 : ClientInfo)
    (hsrc : lookupClient s.clients src_ip = some src0)
    (hfresh : src0.last_processed_request_id < p.request_id)
    (hV : 0 < p.value)
    (hdst : lookupClient s.clients p.destination_ip = some dst0)
    (hne : src_ip ≠ p.destination_ip)
    (hbal : p.value ≤ src0.balance)
    (hub : src0.balance < U32) :
    lookupClient (handle_transaction s src_ip p).1.clients src_ip
        = some { last_processed_request_id := p.request_id,
                 balance := src0.balance - p.value } ∧
    lookupClient (handle_transaction s src_ip p).1.clients p.destination_ip
        = some { dst0 with balance := add32 dst0.balance p.value } ∧
    (handle_transaction s src_ip p).1.num_transactions
        = add32 s.num_transactions 1 ∧
    (handle_transaction s src_ip p).1.total_transferred
        = add64 s.total_transferred p.value ∧
    (handle_transaction s src_ip p).2
        = some (create_reply .TRANSACTION_ACK p.request_id
            (src0.balance - p.value)) := by
  have hsrc1 : lookupClient
      (storeClient s.clients src_ip
        { src0 with last_processed_request_id := p.request_id }) src_ip
      = some { src0 with last_processed_request_id := p.request_id } :=
    lookup_storeClient_self hsrc
  have hdst1 : lookupClient
      (storeClient s.clients src_ip
        { src0 with last_processed_request_id := p.request_id })
      p.destination_ip = some dst0 := by
    rw [lookup_storeClient_ne (Ne.symm hne)]
    exact hdst
  rw [step_transfer hsrc hfresh (by omega) hdst1 hne (by omega)]
  dsimp only
  have hA : lookupClient
      (storeClient
        (storeClient s.clients src_ip
          { src0 with last_processed_request_id := p.request_id })
        src_ip
        { last_processed_request_id := p.request_id,
          balance := sub32 src0.balance p.value }) src_ip
      = some { last_processed_request_id := p.request_id,
               balance := sub32 src0.balance p.value } :=
    lookup_storeClient_self hsrc1
  have hB : lookupClient
      (storeClient
        (storeClient s.clients src_ip
          { src0 with last_processed_request_id := p.request_id })
        src_ip
        { last_processed_request_id := p.request_id,
          balance := sub32 src0.balance p.value }) p.destination_ip
      = some dst0 := by
    rw [lookup_storeClient_ne (Ne.symm hne)]
    exact hdst1
  refine ⟨?_, ?_, rfl, rfl, ?_⟩
  · rw [lookup_storeClient_ne hne, hA, sub32_exact hbal hub]
  · rw [lookup_storeClient_self hB]
  · rw [sub32_exact hbal hub]

/-- Witness for C1 at a concrete input: two clients with balance 100,
client 1 transfers 30 to client 2 under request id 1. -/
theorem C1_successful_transaction_witness :
    lookupClient twoClientsState.clients 1 = some { } ∧
    (0:Nat) < 30 ∧ (30:Nat) ≤ 100 ∧
    (lookupClient
        (handle_transaction twoClientsState 1
          { request_id := 1, destination_ip := 2, value := 30 }).1.clients 1
      = some { last_processed_request_id := 1, balance := 70 } ∧
    lookupClient
        (handle_transaction twoClientsState 1
          { request_id := 1, destination_ip := 2, value := 30 }).1.clients 2
      = some { last_processed_request_id := 0, balance := 130 } ∧
    (handle_transaction twoClientsState 1
        { request_id := 1, destination_ip := 2, value := 30
        }).1.num_transactions = 1 ∧
    (handle_transaction twoClientsState 1
        { request_id := 1, destination_ip := 2, value := 30
        }).1.total_transferred = 30 ∧
    (handle_transaction twoClientsState 1
        { request_id := 1, destination_ip := 2, value := 30 }).2
      = some (create_reply .TRANSACTION_ACK 1 70)) := by
  refine ⟨by decide, by decide, by decide, ?_⟩
  have h := C1_successful_transaction twoClientsState 1
    { request_id := 1, destination_ip := 2, value := 30 }
    { } { } (by decide) (by decide) (by decide) (by decide) (by decide)
    (by decide) (by decide)
  simpa [add32, add64, U32, U64, CLIENT_INITIAL_BALANCE] using h

/-- C2: a request whose id is at most the source's last_processed_request_id
is answered from the cached record with a TRANSACTION_ACK carrying
(last_processed_request_id, balance) and changes nothing; consequently
processing any request a second time leaves the post-state of the first
processing unchanged and repeats the same (request id, balance) reply
pair. -/
theorem C2_duplicate_replay_idempotent :
    (∀ (s : ServerState) (src_ip : Nat) (p : RequestPacket) (c : ClientInfo),
        lookupClient s.clients src_ip = some c →
        p.request_id ≤ c.last_processed_request_id →
        handle_transaction s src_ip p
          = (s, some (create_reply .TRANSACTION_ACK
                c.last_processed_request_id c.balance))) ∧
    (∀ (s : ServerState) (src_ip : Nat) (p : RequestPacket),
        (handle_transaction (handle_transaction s src_ip p).1 src_ip p).1
            = (handle_transaction s src_ip p).1 ∧
        replyPair
            (handle_transaction (handle_transaction s src_ip p).1 src_ip p).2
          = replyPair (handle_transaction s src_ip p).2) := by
  constructor
  · intro s src_ip p c hsrc hdup
    exact step_duplicate hsrc hdup
  · intro s src_ip p
    cases hsrc : lookupClient s.clients src_ip with
    | none =>
        rw [step_unknown_source hsrc]
        dsimp only
        rw [step_unknown_source hsrc]
        exact ⟨rfl, rfl⟩
    | some c =>
        by_cases hdup : p.request_id ≤ c.last_processed_request_id
        · rw [step_duplicate hsrc hdup]
          dsimp only
          rw [step_duplicate hsrc hdup]
          exact ⟨rfl, rfl⟩
        · push_neg at hdup
          have hsrc1 : lookupClient
              (storeClient s.clients src_ip
                { c with last_processed_request_id := p.request_id }) src_ip
              = some { c with last_processed_request_id := p.request_id } :=
            lookup_storeClient_self hsrc
          by_cases hv : p.value = 0
          · rw [step_zero_value hsrc hdup hv]
            dsimp only
            rw [step_duplicate hsrc1 (le_refl _)]
            exact ⟨rfl, rfl⟩
          · cases hdstm : lookupClient
                (storeClient s.clients src_ip
                  { c with last_processed_request_id := p.request_id })
                p.destination_ip with
            | none =>
                rw [step_invalid_dest hsrc hdup hv hdstm]
                dsimp only
                rw [step_duplicate hsrc1 (le_refl _)]
                exact ⟨rfl, rfl⟩
            | some d =>
                by_cases hself : src_ip = p.destination_ip
                · rw [step_self_transfer hsrc hdup hv hdstm hself]
                  dsimp only
                  rw [step_duplicate hsrc1 (le_refl _)]
                  exact ⟨rfl, rfl⟩
                · by_cases hpoor : c.balance < p.value
                  · rw [step_insufficient hsrc hdup hv hdstm hself hpoor]
                    dsimp only
                    rw [step_duplicate hsrc1 (le_refl _)]
                    exact ⟨rfl, rfl⟩
                  · rw [step_transfer hsrc hdup hv hdstm hself hpoor]
                    dsimp only
                    have hA : lookupClient
                        (storeClient
                          (storeClient
                            (storeClient s.clients src_ip
                              { c with last_processed_request_id :=
                                  p.request_id })
                            src_ip
                            { last_processed_request_id := p.request_id,
                              balance := sub32 c.balance p.value })
                          p.destination_ip
                          { d with balance := add32 d.balance p.value })
                        src_ip
                        = some { last_processed_request_id := p.request_id,
                                 balance := sub32 c.balance p.value } := by
                      rw [lookup_storeClient_ne hself]
                      exact lookup_storeClient_self hsrc1
                    rw [step_duplicate hA (le_refl _)]
                    exact ⟨rfl, rfl⟩

/-- Witness for C2 at a concrete input: the transfer of 30 from client 1 to
client 2 replayed with the same request id changes nothing and the cached
duplicate branch repeats the reply pair. -/
theorem C2_duplicate_replay_idempotent_witness :
    lookupClient
        (handle_transaction twoClientsState 1
          { request_id := 1, destination_ip := 2, value := 30 }).1.clients 1
      = some { last_processed_request_id := 1, balance := 70 } ∧
    (1:Nat) ≤ 1 ∧
    handle_transaction
        (handle_transaction twoClientsState 1
          { request_id := 1, destination_ip := 2, value := 30 }).1 1
        { request_id := 1, destination_ip := 2, value := 30 }
      = ((handle_transaction twoClientsState 1
            { request_id := 1, destination_ip := 2, value := 30 }).1,
         some (create_reply .TRANSACTION_ACK 1 70)) := by
  refine ⟨by decide, by decide, ?_⟩
  exact C2_duplicate_replay_idempotent.1
    (handle_transaction twoClientsState 1
      { request_id := 1, destination_ip := 2, value := 30 }).1 1
    { request_id := 1, destination_ip := 2, value := 30 }
    { last_processed_request_id := 1, balance := 70 }
    (by decide) (by decide)

/-- C4: for every existing client record, neither a discovery nor a
transaction (with any input) ever decreases its last_processed_request_id:
the duplicate branch leaves it unchanged and the claim step only writes the
strictly larger incoming id. -/
theorem C4_monotone_request_ids (s : ServerState) (k : Nat) (v : ClientInfo)
    (hk : lookupClient s.clients k = some v) :
    (∀ ip : Nat, ∃ v',
        lookupClient (handle_client_discovery s ip).1.clients k = some v' ∧
        v.last_processed_request_id ≤ v'.last_processed_request_id) ∧
    (∀ (src_ip : Nat) (p : RequestPacket), ∃ v',
        lookupClient (handle_transaction s src_ip p).1.clients k = some v' ∧
        v.last_processed_request_id ≤ v'.last_processed_request_id) := by
  constructor
  · intro ip
    cases hip : lookupClient s.clients ip with
    | none =>
        have hne : k ≠ ip := by
          intro h
          rw [h, hip] at hk
          cases hk
        refine ⟨v, ?_, le_refl _⟩
        simp [handle_client_discovery, insertClient, hip, lookupClient, hne,
          hk]
    | some w =>
        refine ⟨v, ?_, le_refl _⟩
        simp [handle_client_discovery, insertClient, hip, hk]
  · intro src_ip p
    cases hsrc : lookupClient s.clients src_ip with
    | none =>
        rw [step_unknown_source hsrc]
        exact ⟨v, hk, le_refl _⟩
    | some c =>
        by_cases hdup : p.request_id ≤ c.last_processed_request_id
        · rw [step_duplicate hsrc hdup]
          exact ⟨v, hk, le_refl _⟩
        · push_neg at hdup
          have hsrc1 : lookupClient
              (storeClient s.clients src_ip
                { c with last_processed_request_id := p.request_id }) src_ip
              = some { c with last_processed_request_id := p.request_id } :=
            lookup_storeClient_self hsrc
          have hbump : ∀ h : k = src_ip,
              v.last_processed_request_id ≤ p.request_id := by
            intro h
            subst h
            rw [hk] at hsrc
            rw [Option.some.inj hsrc]
            omega
          have hstep1 : ∃ v', lookupClient
              (storeClient s.clients src_ip
                { c with last_processed_request_id := p.request_id }) k
              = some v' ∧
              v.last_processed_request_id ≤ v'.last_processed_request_id := by
            by_cases hks : k = src_ip
            · subst hks
              exact ⟨_, hsrc1, hbump rfl⟩
            · refine ⟨v, ?_, le_refl _⟩
              rw [lookup_storeClient_ne hks]
              exact hk
          by_cases hv : p.value = 0
          · rw [step_zero_value hsrc hdup hv]
            exact hstep1
          · cases hdstm : lookupClient
                (storeClient s.clients src_ip
                  { c with last_processed_request_id := p.request_id })
                p.destination_ip with
            | none =>
                rw [step_invalid_dest hsrc hdup hv hdstm]
                exact hstep1
            | some d =>
                by_cases hself : src_ip = p.destination_ip
                · rw [step_self_transfer hsrc hdup hv hdstm hself]
                  exact hstep1
                · by_cases hpoor : c.balance < p.value
                  · rw [step_insufficient hsrc hdup hv hdstm hself hpoor]
                    exact hstep1
                  · rw [step_transfer hsrc hdup hv hdstm hself hpoor]
                    dsimp only
                    by_cases hks : k = src_ip
                    · subst hks
                      refine ⟨{ last_processed_request_id := p.request_id,
                                balance := sub32 c.balance p.value },
                              ?_, hbump rfl⟩
                      rw [lookup_storeClient_ne hself]
                      exact lookup_storeClient_self hsrc1
                    · by_cases hkd : k = p.destination_ip
                      · subst hkd
                        have hvd : d = v := by
                          rw [lookup_storeClient_ne hks, hk] at hdstm
                          exact (Option.some.inj hdstm).symm
                        subst hvd
                        refine ⟨{ d with
                            balance := add32 d.balance p.value }, ?_,
                            le_refl _⟩
                        apply lookup_storeClient_self
                        rw [lookup_storeClient_ne hks,
                          lookup_storeClient_ne hks]
                        exact hk
                      · refine ⟨v, ?_, le_refl _⟩
                        rw [lookup_storeClient_ne hkd,
                          lookup_storeClient_ne hks,
                          lookup_storeClient_ne hks]
                        exact hk

/-- Witness for C4 at a concrete input: after the transfer of 30 from
client 1 to client 2, client 1's record still exists with a request id at
least its old one. -/
theorem C4_monotone_request_ids_witness :
    lookupClient twoClientsState.clients 1 = some { } ∧
    (∃ v', lookupClient
        (handle_transaction twoClientsState 1
          { request_id := 5, destination_ip := 2, value := 30 }).1.clients 1
      = some v' ∧
      ClientInfo.last_processed_request_id { }
        ≤ v'.last_processed_request_id) :=
  ⟨by decide,
    (C4_monotone_request_ids twoClientsState 1 { } (by decide)).2 1
      { request_id := 5, destination_ip := 2, value := 30 }⟩

/-- C5 counterexample: a non-duplicate request with value 0 to an
unregistered destination is answered with TRANSACTION_ACK (the zero-value
fast path precedes the destination check), not with INVALID_CLIENT_ACK as
the claim states. -/
theorem C5_validation_failures_counterexample :
    lookupClient twoClientsState.clients 1 = some { } ∧
    ClientInfo.last_processed_request_id { } < 1 ∧
    lookupClient twoClientsState.clients 9 = none ∧
    (handle_transaction twoClientsState 1
        { request_id := 1, destination_ip := 9, value := 0 }).2
      ≠ some (create_reply .INVALID_CLIENT_ACK 1 100) ∧
    (handle_transaction twoClientsState 1
        { request_id := 1, destination_ip := 9, value := 0 }).2
      = some (create_reply .TRANSACTION_ACK 1 100) := by
  decide

/-- C5 (amended): for a non-duplicate request with positive value from a
registered source, an unregistered destination yields INVALID_CLIENT_ACK
and (for a registered distinct destination) insufficient balance yields
INSUFFICIENT_BALANCE_ACK, both carrying (R, balance(S)); the only state
change is setting the source's last_processed_request_id to R. An
unregistered source yields ERROR_ACK with balance 0 and no state change. -/
theorem C5_validation_failures (s : ServerState) (src_ip : Nat)
    (p : RequestPacket) :
    (lookupClient s.clients src_ip = none →
      handle_transaction s src_ip p
        = (s, some (create_reply .ERROR_ACK p.request_id 0))) ∧
    (∀ c : ClientInfo, lookupClient s.clients src_ip = some c →
      c.last_processed_request_id < p.request_id → p.value ≠ 0 →
      (lookupClient s.clients p.destination_ip = none →
        handle_transaction s src_ip p
          = ({ s with clients := storeClient s.clients src_ip
                          ({ c with last_processed_request_id :=
                              p.request_id }) },
             some (create_reply .INVALID_CLIENT_ACK p.request_id
               c.balance))) ∧
      (∀ d : ClientInfo, lookupClient s.clients p.destination_ip = some d →
        src_ip ≠ p.destination_ip → c.balance < p.value →
        handle_transaction s src_ip p
          = ({ s with clients := storeClient s.clients src_ip
                          ({ c with last_processed_request_id :=
                              p.request_id }) },
             some (create_reply .INSUFFICIENT_BALANCE_ACK p.request_id
               c.balance)))) := by
  refine ⟨fun hsrc => step_unknown_source hsrc, ?_⟩
  intro c hsrc hfresh hv
  constructor
  · intro hdst
    have hne : ¬ p.destination_ip = src_ip := by
      intro h
      rw [h, hsrc] at hdst
      cases hdst
    apply step_invalid_dest hsrc hfresh hv
    rw [lookup_storeClient_ne hne]
    exact hdst
  · intro d hdst hne hpoor
    have hdst1 : lookupClient
        (storeClient s.clients src_ip
          { c with last_processed_request_id := p.request_id })
        p.destination_ip = some d := by
      rw [lookup_storeClient_ne (Ne.symm hne)]
      exact hdst
    exact step_insufficient hsrc hfresh hv hdst1 hne hpoor

/-- Witness for C5 at a concrete input: client 1 sends 10 to unregistered
IP 9, receiving INVALID_CLIENT_ACK (1, 100) with only the id bumped. -/
theorem C5_validation_failures_witness :
    lookupClient twoClientsState.clients 1 = some { } ∧
    ClientInfo.last_processed_request_id { } < 1 ∧ (10:Nat) ≠ 0 ∧
    lookupClient twoClientsState.clients 9 = none ∧
    handle_transaction twoClientsState 1
        { request_id := 1, destination_ip := 9, value := 10 }
      = ({ twoClientsState with
            clients := storeClient twoClientsState.clients 1
              { last_processed_request_id := 1, balance := 100 } },
         some (create_reply .INVALID_CLIENT_ACK 1 100)) := by
  refine ⟨by decide, by decide, by decide, by decide, ?_⟩
  exact ((C5_validation_failures twoClientsState 1
    { request_id := 1, destination_ip := 9, value := 10 }).2
    { } (by decide) (by decide) (by decide)).1 (by decide)

/-- C10: whenever the transfer branch runs (sequentially), the solvency
check established `value ≤ balance(S)`, so the unsigned 32-bit debit
`src.balance -= V` does not wrap: the stored source balance is exactly the
mathematical difference. -/
theorem C10_debit_never_wraps (s : ServerState) (src_ip : Nat)
    (p : RequestPacket) (src0 dst0 : ClientInfo)
    (hsrc : lookupClient s.clients src_ip = some src0)
    (hfresh : src0.last_processed_request_id < p.request_id)
    (hV : 0 < p.value)
    (hdst : lookupClient s.clients p.destination_ip = some dst0)
    (hne : src_ip ≠ p.destination_ip)
    (hbal : p.value ≤ src0.balance)
    (hub : src0.balance < U32) :
    sub32 src0.balance p.value = src0.balance - p.value ∧
    lookupClient (handle_transaction s src_ip p).1.clients src_ip
      = some { last_processed_request_id := p.request_id,
               balance := src0.balance - p.value } := by
  have hsrc1 : lookupClient
      (storeClient s.clients src_ip
        { src0 with last_processed_request_id := p.request_id }) src_ip
      = some { src0 with last_processed_request_id := p.request_id } :=
    lookup_storeClient_self hsrc
  have hdst1 : lookupClient
      (storeClient s.clients src_ip
        { src0 with last_processed_request_id := p.request_id })
      p.destination_ip = some dst0 := by
    rw [lookup_storeClient_ne (Ne.symm hne)]
    exact hdst
  refine ⟨sub32_exact hbal hub, ?_⟩
  rw [step_transfer hsrc hfresh (by omega) hdst1 hne (by omega)]
  dsimp only
  rw [lookup_storeClient_ne hne, lookup_storeClient_self hsrc1,
    sub32_exact hbal hub]

/-- Witness for C10 at a concrete input: the debit of 30 from balance 100
stores exactly 70. -/
theorem C10_debit_never_wraps_witness :
    (30:Nat) ≤ 100 ∧ (100:Nat) < U32 ∧
    (sub32 100 30 = 100 - 30 ∧
     lookupClient
        (handle_transaction twoClientsState 1
          { request_id := 1, destination_ip := 2, value := 30 }).1.clients 1
      = some { last_processed_request_id := 1, balance := 100 - 30 }) :=
  ⟨by decide, by decide,
    C10_debit_never_wraps twoClientsState 1
      { request_id := 1, destination_ip := 2, value := 30 } { } { }
      (by decide) (by decide) (by decide) (by decide) (by decide)
      (by decide) (by decide)⟩

-- ===== Discovery branch characterizations =====

theorem step_discovery_new {s : ServerState} {ip : Nat}
    (hip : lookupClient s.clients ip = none) :
    handle_client_discovery s ip
      = ({ s with clients := (ip, defaultClientInfo) :: s.clients,
                  total_balance :=
                    add64 s.total_balance CLIENT_INITIAL_BALANCE },
         create_reply .CLIENT_DISCOVERY_ACK
           defaultClientInfo.last_processed_request_id
           defaultClientInfo.balance) := by
  simp [handle_client_discovery, insertClient, hip]

theorem step_discovery_existing {s : ServerState} {ip : Nat} {w : ClientInfo}
    (hip : lookupClient s.clients ip = some w) :
    handle_client_discovery s ip
      = (s, create_reply .CLIENT_DISCOVERY_ACK
          w.last_processed_request_id w.balance) := by
  simp [handle_client_discovery, insertClient, hip]

-- ===== The conservation invariant =====

/-- Spec invariant P1: the total_balance statistic equals
INITIAL_BALANCE times the number of registered clients and equals the sum
of all stored balances. -/
def conservationInv (s : ServerState) : Prop :=
  s.total_balance = CLIENT_INITIAL_BALANCE * numClients s.clients ∧
  s.total_balance = sumBalances s.clients

theorem u32_le_u64 : U32 + CLIENT_INITIAL_BALANCE < U64 := by
  norm_num [U32, U64, CLIENT_INITIAL_BALANCE]

instance decidableConservationInv (s : ServerState) :
    Decidable (conservationInv s) := by
  unfold conservationInv
  infer_instance

/-- C3 (amended): the invariant holds initially; while fewer than
U32 / INITIAL_BALANCE clients are registered (so that no uint32 credit can
wrap), every discovery and every transaction preserves it; a discovery of a
new client adds exactly INITIAL_BALANCE to total_balance, a repeated
discovery and every transaction leave total_balance unchanged. -/
theorem C3_conservation :
    conservationInv initialServerState ∧
    (∀ (s : ServerState) (ip : Nat), conservationInv s →
      CLIENT_INITIAL_BALANCE * numClients s.clients < U32 →
      conservationInv (handle_client_discovery s ip).1 ∧
      (handle_client_discovery s ip).1.total_balance
        = (if lookupClient s.clients ip = none
           then s.total_balance + CLIENT_INITIAL_BALANCE
           else s.total_balance)) ∧
    (∀ (s : ServerState) (src_ip : Nat) (p : RequestPacket),
      conservationInv s →
      CLIENT_INITIAL_BALANCE * numClients s.clients < U32 →
      conservationInv (handle_transaction s src_ip p).1 ∧
      (handle_transaction s src_ip p).1.total_balance
        = s.total_balance) := by
  refine ⟨⟨rfl, rfl⟩, ?_, ?_⟩
  · intro s ip hInv hbound
    obtain ⟨h1, h2⟩ := hInv
    cases hip : lookupClient s.clients ip with
    | none =>
        have htb : add64 s.total_balance CLIENT_INITIAL_BALANCE
            = s.total_balance + CLIENT_INITIAL_BALANCE := by
          apply add64_exact
          have := u32_le_u64
          omega
        rw [step_discovery_new hip]
        dsimp only
        refine ⟨⟨?_, ?_⟩, ?_⟩
        · rw [htb, h1]
          simp [numClients]
          ring
        · rw [htb, h2]
          simp [sumBalances, defaultClientInfo, CLIENT_INITIAL_BALANCE]
          omega
        · simp [hip, htb]
    | some w =>
        rw [step_discovery_existing hip]
        dsimp only
        refine ⟨⟨h1, h2⟩, ?_⟩
        simp [hip]
  · intro s src_ip p hInv hbound
    obtain ⟨h1, h2⟩ := hInv
    cases hsrc : lookupClient s.clients src_ip with
    | none =>
        rw [step_unknown_source hsrc]
        exact ⟨⟨h1, h2⟩, rfl⟩
    | some c =>
        by_cases hdup : p.request_id ≤ c.last_processed_request_id
        · rw [step_duplicate hsrc hdup]
          exact ⟨⟨h1, h2⟩, rfl⟩
        · push_neg at hdup
          have hsum1 : sumBalances
              (storeClient s.clients src_ip
                { c with last_processed_request_id := p.request_id })
              = sumBalances s.clients := by
            have := sum_storeClient
              (v := { c with last_processed_request_id := p.request_id })
              hsrc
            simp at this
            omega
          have hlen1 : numClients
              (storeClient s.clients src_ip
                { c with last_processed_request_id := p.request_id })
              = numClients s.clients := by
            simp [numClients, length_storeClient]
          have hbumpInv : conservationInv
              { s with clients := storeClient s.clients src_ip
                          ({ c with last_processed_request_id :=
                              p.request_id }) } :=
            ⟨by dsimp only; rw [hlen1]; exact h1,
             by dsimp only; rw [hsum1]; exact h2⟩
          have hsrc1 : lookupClient
              (storeClient s.clients src_ip
                { c with last_processed_request_id := p.request_id }) src_ip
              = some { c with last_processed_request_id := p.request_id } :=
            lookup_storeClient_self hsrc
          by_cases hv : p.value = 0
          · rw [step_zero_value hsrc hdup hv]
            exact ⟨hbumpInv, rfl⟩
          · cases hdstm : lookupClient
                (storeClient s.clients src_ip
                  { c with last_processed_request_id := p.request_id })
                p.destination_ip with
            | none =>
                rw [step_invalid_dest hsrc hdup hv hdstm]
                exact ⟨hbumpInv, rfl⟩
            | some d =>
                by_cases hself : src_ip = p.destination_ip
                · rw [step_self_transfer hsrc hdup hv hdstm hself]
                  exact ⟨hbumpInv, rfl⟩
                · by_cases hpoor : c.balance < p.value
                  · rw [step_insufficient hsrc hdup hv hdstm hself hpoor]
                    exact ⟨hbumpInv, rfl⟩
                  · push_neg at hpoor
                    have hdst0 : lookupClient s.clients p.destination_ip
                        = some d := by
                      rw [lookup_storeClient_ne (Ne.symm hself)] at hdstm
                      exact hdstm
                    have hpair : c.balance + d.balance
                        ≤ sumBalances s.clients :=
                      pair_balance_le_sum hself hsrc hdst0
                    have hsumU : sumBalances s.clients < U32 := by omega
                    have hcU : c.balance < U32 := by omega
                    have hdU : d.balance + p.value < U32 := by omega
                    rw [step_transfer hsrc hdup hv hdstm hself
                      (by omega)]
                    dsimp only
                    have hsrcA : lookupClient
                        (storeClient s.clients src_ip
                          { c with last_processed_request_id :=
                              p.request_id }) src_ip
                        = some { c with last_processed_request_id :=
                            p.request_id } := hsrc1
                    have hsum2 := sum_storeClient
                      (v := { last_processed_request_id := p.request_id,
                              balance := sub32 c.balance p.value }) hsrcA
                    have hdst2 : lookupClient
                        (storeClient
                          (storeClient s.clients src_ip
                            { c with last_processed_request_id :=
                                p.request_id })
                          src_ip
                          { last_processed_request_id := p.request_id,
                            balance := sub32 c.balance p.value })
                        p.destination_ip = some d := by
                      rw [lookup_storeClient_ne (Ne.symm hself)]
                      exact hdstm
                    have hsum3 := sum_storeClient
                      (v := { d with balance := add32 d.balance p.value })
                      hdst2
                    simp [sub32_exact hpoor hcU, add32_exact hdU]
                      at hsum2 hsum3
                    refine ⟨⟨?_, ?_⟩, rfl⟩
                    · simpa [numClients, length_storeClient] using h1
                    · simp only [sub32_exact hpoor hcU, add32_exact hdU]
                      omega

/-- Witness for C3 at a concrete input: a transaction preserves the
invariant on the two-client state. -/
theorem C3_conservation_witness :
    conservationInv twoClientsState ∧
    CLIENT_INITIAL_BALANCE * numClients twoClientsState.clients < U32 ∧
    (conservationInv
        (handle_transaction twoClientsState 1
          { request_id := 1, destination_ip := 2, value := 30 }).1 ∧
     (handle_transaction twoClientsState 1
        { request_id := 1, destination_ip := 2, value := 30
        }).1.total_balance = twoClientsState.total_balance) :=
  ⟨by decide, by decide,
   C3_conservation.2.2 twoClientsState 1
     { request_id := 1, destination_ip := 2, value := 30 }
     (by decide) (by decide)⟩

theorem sumBalances_cons (kv : Nat × ClientInfo) (l : Clients) :
    sumBalances (kv :: l) = kv.2.balance + sumBalances l := by
  simp [sumBalances]

/-- Padding table: 42949671 further registered clients (keys 2 ...) whose
entire balance has already been transferred away. -/
def overflowPad : Clients :=
  (List.range 42949671).map
    (fun i => (i + 2, { last_processed_request_id := 0, balance := 0 }))

/-- A reachable client table in which one uint32 balance is about to
overflow: client 0 still holds its 100, client 1 has accumulated
2^32 - 96, everybody else holds 0; the sum is exactly
100 * 42949673 = 4294967300. -/
def overflowClients : Clients :=
  (0, { last_processed_request_id := 0, balance := 100 })
    :: (1, { last_processed_request_id := 0, balance := U32 - 96 })
    :: overflowPad

def overflowState : ServerState :=
  { clients := overflowClients, num_transactions := 0,
    total_transferred := 0, total_balance := 4294967300 }

theorem overflowPad_sum : sumBalances overflowPad = 0 := by
  unfold overflowPad sumBalances
  rw [List.map_map]
  apply List.sum_eq_zero
  intro x hx
  simp at hx
  obtain ⟨i, _, hi⟩ := hx
  omega

theorem overflowPad_length : overflowPad.length = 42949671 := by
  simp [overflowPad]

/-- C3 counterexample: on the (reachable) overflow state the invariant
holds, but one more valid transfer of 100 from client 0 to client 1 wraps
client 1's uint32 balance around to 4 and breaks
`total_balance = sum of balances`. -/
theorem C3_conservation_counterexample :
    conservationInv overflowState ∧
    ¬ conservationInv
        (handle_transaction overflowState 0
          { request_id := 1, destination_ip := 1, value := 100 }).1 := by
  have hsumall : sumBalances overflowClients = 4294967300 := by
    unfold overflowClients
    rw [sumBalances_cons, sumBalances_cons, overflowPad_sum]
    norm_num [U32]
  constructor
  · constructor
    · show (4294967300 : Nat)
        = CLIENT_INITIAL_BALANCE * numClients overflowState.clients
      have hn : numClients overflowState.clients = 42949673 := by
        show (overflowClients).length = 42949673
        unfold overflowClients
        rw [List.length_cons, List.length_cons, overflowPad_length]
      rw [hn]
      norm_num [CLIENT_INITIAL_BALANCE]
    · show (4294967300 : Nat) = sumBalances overflowState.clients
      exact hsumall.symm
  · have hsrc : lookupClient overflowState.clients 0
        = some { last_processed_request_id := 0, balance := 100 } := rfl
    have hdstm : lookupClient
        (storeClient overflowState.clients 0
          { last_processed_request_id := 1, balance := 100 }) 1
        = some { last_processed_request_id := 0, balance := U32 - 96 } := by
      rw [lookup_storeClient_ne (by decide : (1:Nat) ≠ 0)]
      rfl
    rw [step_transfer hsrc (by decide) (by decide) hdstm (by decide)
      (by decide)]
    intro hcontra
    obtain ⟨hA, hB⟩ := hcontra
    have hB2 : (4294967300 : Nat) = sumBalances
        ((0, ({ last_processed_request_id := 1,
                balance := sub32 100 100 } : ClientInfo))
          :: (1, ({ last_processed_request_id := 0,
                    balance := add32 (U32 - 96) 100 } : ClientInfo))
          :: overflowPad) := hB
    rw [sumBalances_cons, sumBalances_cons, overflowPad_sum] at hB2
    norm_num [sub32, add32, U32] at hB2

-- ===== Lock-ordering model for atomic_pair_operation =====

/-- The per-call lock-acquisition sequence of
`LockedMap::atomic_pair_operation` (`locked_map.h`, lines 345-372), with
entry identities (the C++ `Entry*` pointer values) abstracted as naturals:
when both keys resolve to the same entry its write lock is taken once;
otherwise the lower-ordered entry's lock is taken first, then the
higher. -/
def pairLockOrder (a b : Nat) : List Nat :=
  if a = b then [a] else if a < b then [a, b] else [b, a]

/-- A thread executing an atomic pair operation: the entry locks it already
holds (in acquisition order) and those it still has to acquire. -/
structure LockThread where
  held : List Nat
  toAcquire : List Nat
deriving DecidableEq, Repr

/-- A thread about to run `atomic_pair_operation` on entries `a` and
`b`. -/
def pairOpThread (a b : Nat) : LockThread :=
  { held := [], toAcquire := pairLockOrder a b }

abbrev LockConfig := List LockThread

/-- All locks currently held by some thread. -/
def heldLocks (c : LockConfig) : List Nat := (c.map LockThread.held).flatten

/-- A thread acquires its locks in strictly increasing entry order — the
invariant `atomic_pair_operation` establishes by sorting the two entries. -/
def SortedThread (t : LockThread) : Prop :=
  List.Pairwise (fun x y => x < y) (t.held ++ t.toAcquire)

def WFConfig (c : LockConfig) : Prop := ∀ t ∈ c, SortedThread t

instance decidableSortedThread (t : LockThread) :
    Decidable (SortedThread t) := by
  unfold SortedThread
  infer_instance

instance decidableWFConfig (c : LockConfig) : Decidable (WFConfig c) := by
  unfold WFConfig
  infer_instance

/-- Interleaved execution of the blocking lock acquisitions: a thread may
acquire its next lock when no thread holds it (a held write lock blocks the
`lock_write` of `locked_map.h` lines 243-259 until release), and a thread
holding everything it asked for runs the callback and releases its locks. -/
inductive LockStep : LockConfig → LockConfig → Prop where
  | acquire (c1 c2 : LockConfig) (t : LockThread) (l : Nat) (ls : List Nat) :
      t.toAcquire = l :: ls →
      l ∉ heldLocks (c1 ++ t :: c2) →
      LockStep (c1 ++ t :: c2)
        (c1 ++ { held := t.held ++ [l], toAcquire := ls } :: c2)
  | finish (c1 c2 : LockConfig) (t : LockThread) :
      t.toAcquire = [] →
      LockStep (c1 ++ t :: c2) (c1 ++ c2)

def lockMeasure (c : LockConfig) : Nat :=
  (c.map (fun t => t.toAcquire.length + 1)).sum

theorem exists_list_max : ∀ l : List Nat, l ≠ [] →
    ∃ a, a ∈ l ∧ ∀ b ∈ l, b ≤ a
  | [], h => absurd rfl h
  | [x], _ => ⟨x, by simp, by simp⟩
  | x :: y :: ys, _ => by
    obtain ⟨m, hm, hmax⟩ := exists_list_max (y :: ys) (by simp)
    by_cases hxm : x ≤ m
    · refine ⟨m, by simp [List.mem_cons.mp hm], ?_⟩
      intro b hb
      rcases List.mem_cons.mp hb with hb | hb
      · omega
      · exact hmax b hb
    · refine ⟨x, by simp, ?_⟩
      intro b hb
      rcases List.mem_cons.mp hb with hb | hb
      · omega
      · exact le_trans (hmax b hb) (by omega)

theorem sortedThread_pairOpThread (a b : Nat) :
    SortedThread (pairOpThread a b) := by
  unfold SortedThread pairOpThread pairLockOrder
  split_ifs with h1 h2
  · simp
  · simp
    omega
  · simp
    omega

theorem wf_lockStep {c c' : LockConfig} (hwf : WFConfig c)
    (h : LockStep c c') : WFConfig c' := by
  cases h with
  | acquire c1 c2 t l ls hta hnot =>
      intro u hu
      rcases List.mem_append.mp hu with hu | hu
      · exact hwf u (by simp [hu])
      · rcases List.mem_cons.mp hu with rfl | hu
        · have hs := hwf t (by simp)
          unfold SortedThread at hs ⊢
          simp only [hta] at hs
          simpa [List.append_assoc] using hs
        · exact hwf u (by simp [hu])
  | finish c1 c2 t hta =>
      intro u hu
      apply hwf
      rcases List.mem_append.mp hu with hu | hu <;> simp [hu]

theorem lockStep_measure {c c' : LockConfig} (h : LockStep c c') :
    lockMeasure c' < lockMeasure c := by
  cases h with
  | acquire c1 c2 t l ls hta hnot =>
      simp [lockMeasure, List.map_append, List.sum_append, hta]
  | finish c1 c2 t hta =>
      simp [lockMeasure, List.map_append, List.sum_append, hta]

theorem lockStep_progress {c : LockConfig} (hwf : WFConfig c)
    (hne : c ≠ []) : ∃ c', LockStep c c' := by
  by_cases hfin : ∃ t ∈ c, t.toAcquire = []
  · obtain ⟨t, htc, hta⟩ := hfin
    obtain ⟨c1, c2, rfl⟩ := List.append_of_mem htc
    exact ⟨c1 ++ c2, LockStep.finish c1 c2 t hta⟩
  · push_neg at hfin
    have hheads : c.map (fun t => t.toAcquire.headI) ≠ [] := by
      simp [hne]
    obtain ⟨a, ha, hamax⟩ := exists_list_max _ hheads
    rw [List.mem_map] at ha
    obtain ⟨t, htc, hta⟩ := ha
    have htne : t.toAcquire ≠ [] := hfin t htc
    obtain ⟨l, ls, hl⟩ : ∃ l ls, t.toAcquire = l :: ls := by
      cases hx : t.toAcquire with
      | nil => exact absurd hx htne
      | cons l ls => exact ⟨l, ls, rfl⟩
    have hla : l = a := by
      rw [hl] at hta
      simpa using hta
    have hnot : a ∉ heldLocks c := by
      intro hmem
      unfold heldLocks at hmem
      rw [List.mem_flatten] at hmem
      obtain ⟨hl', hhl, hmem2⟩ := hmem
      rw [List.mem_map] at hhl
      obtain ⟨u, huc, rfl⟩ := hhl
      have hsort := hwf u huc
      have hune : u.toAcquire ≠ [] := hfin u huc
      obtain ⟨m, ms, hm⟩ : ∃ m ms, u.toAcquire = m :: ms := by
        cases hx : u.toAcquire with
        | nil => exact absurd hx hune
        | cons m ms => exact ⟨m, ms, rfl⟩
      have hma : m ≤ a := by
        have := hamax (u.toAcquire.headI)
          (List.mem_map.mpr ⟨u, huc, rfl⟩)
        rw [hm] at this
        simpa using this
      unfold SortedThread at hsort
      rw [List.pairwise_append] at hsort
      have := hsort.2.2 a hmem2 m (by rw [hm]; simp)
      omega
    obtain ⟨c1, c2, rfl⟩ := List.append_of_mem htc
    refine ⟨_, LockStep.acquire c1 c2 t l ls hl ?_⟩
    rw [hla]
    exact hnot

/-- C6: threads running atomic_pair_operation acquire their (one or two)
entry write locks in the single global entry order, every step of the
resulting lock-acquisition system preserves that discipline, from any
nonempty well-formed configuration some thread can always make progress
(no deadlock), and no infinite execution exists: any finite set of
concurrent atomic_pair_operation calls terminates. -/
theorem C6_pair_locking_deadlock_free :
    (∀ a b : Nat, SortedThread (pairOpThread a b)) ∧
    (∀ c c' : LockConfig, WFConfig c → LockStep c c' → WFConfig c') ∧
    (∀ c : LockConfig, WFConfig c → c ≠ [] → ∃ c', LockStep c c') ∧
    (∀ f : Nat → LockConfig,
      (∀ n, LockStep (f n) (f (n + 1))) → False) := by
  refine ⟨sortedThread_pairOpThread,
    fun c c' hwf h => wf_lockStep hwf h,
    fun c hwf hne => lockStep_progress hwf hne, ?_⟩
  intro f hstep
  have hdec : ∀ n, lockMeasure (f n) + n ≤ lockMeasure (f 0) := by
    intro n
    induction n with
    | zero => omega
    | succ k ih =>
        have := lockStep_measure (hstep k)
        omega
  have := hdec (lockMeasure (f 0) + 1)
  omega

/-- Witness for C6 at a concrete input: two threads locking the entry pair
(1, 2) in opposite argument orders form a well-formed configuration from
which a step exists. -/
theorem C6_pair_locking_deadlock_free_witness :
    WFConfig [pairOpThread 1 2, pairOpThread 2 1] ∧
    [pairOpThread 1 2, pairOpThread 2 1] ≠ ([] : LockConfig) ∧
    ∃ c', LockStep [pairOpThread 1 2, pairOpThread 2 1] c' :=
  ⟨by decide, by decide,
   C6_pair_locking_deadlock_free.2.2.1 [pairOpThread 1 2, pairOpThread 2 1]
     (by decide) (by decide)⟩

-- ===== Listening-loop datagram size check =====

/-- sizeof(Packet) (`packet.h`, lines 98-116): 1 byte type tag, 3 bytes
padding, 4 bytes request_id, and the 196-byte union (whose largest variant
is ServerListUpdatePayload: 1 count byte, 3 bytes padding, 16 ServerEntry
of 12 bytes each), for 204 bytes in total. -/
def sizeofPacket : Nat := 204

/-- Bytes returned by a successful `UDPSocket::receive` into a
`buf_len`-byte buffer when a `datagram_len`-byte datagram is pending
(`udp_socket.cpp`, lines 154-186): recvfrom delivers the datagram,
truncated to the buffer size — "If buffer too small, datagram is truncated
and excess data is lost" (line 184). -/
def udpReceive (datagram_len buf_len : Nat) : Nat :=
  min datagram_len buf_len

/-- The listening loop's dispatch decision (`server.cpp`, lines 41-58): a
worker thread is spawned iff the bytes received into the sizeof(Packet)
buffer equal sizeof(Packet). -/
def spawnsWorker (datagram_len : Nat) : Bool :=
  udpReceive datagram_len sizeofPacket == sizeofPacket

/-- C7 counterexample: an oversized datagram (one byte larger than the
packet) is truncated by recvfrom to exactly sizeof(Packet) bytes, so the
server processes it rather than rejecting it. -/
theorem C7_exact_size_counterexample :
    spawnsWorker (sizeofPacket + 1) = true ∧
    sizeofPacket + 1 ≠ sizeofPacket := by
  decide

/-- C7 (amended): a worker is spawned iff the receive call returned exactly
sizeof(Packet) bytes, which happens iff the datagram is at least
sizeof(Packet) bytes long; undersized datagrams are dropped without any
processing, while oversized datagrams are truncated and processed. -/
theorem C7_size_check (n : Nat) :
    (spawnsWorker n = true ↔ udpReceive n sizeofPacket = sizeofPacket) ∧
    (spawnsWorker n = true ↔ sizeofPacket ≤ n) ∧
    (n < sizeofPacket → spawnsWorker n = false) := by
  refine ⟨by simp [spawnsWorker, udpReceive], ?_, ?_⟩
  · simp [spawnsWorker, udpReceive]
  · intro h
    simp only [spawnsWorker, udpReceive]
    have : min n sizeofPacket ≠ sizeofPacket := by omega
    simpa using this

/-- Witness for C7 at a concrete input: a 203-byte datagram is dropped. -/
theorem C7_size_check_witness :
    (203:Nat) < sizeofPacket ∧ spawnsWorker 203 = false :=
  ⟨by decide, (C7_size_check 203).2.2 (by decide)⟩

-- ===== Client request-id counter =====

/-- One `next_request_id++` on the uint32 counter (`client.cpp`, line 161:
"wraps around at UINT32_MAX"). -/
def nextRequestIdIncrement (id : Nat) : Nat := add32 id 1

/-- Value of `next_request_id` after n accepted input lines; the
constructor initializes it to 1 (`client.cpp`, line 17). -/
def nextIdAfterLines : Nat → Nat
  | 0 => 1
  | n + 1 => nextRequestIdIncrement (nextIdAfterLines n)

/-- The request id stamped on the (0-indexed) n-th accepted input line
(`client.cpp`, line 158 uses the current counter value, line 161 then
increments it). -/
def requestIdOfLine (n : Nat) : Nat := nextIdAfterLines n

theorem nextIdAfterLines_eq (n : Nat) : nextIdAfterLines n = (1 + n) % U32 := by
  induction n with
  | zero =>
      show 1 = (1 + 0) % U32
      norm_num [U32]
  | succ k ih =>
      show add32 (nextIdAfterLines k) 1 = (1 + (k + 1)) % U32
      rw [ih]
      simp only [add32, U32]
      norm_num
      omega

/-- C8 counterexample: after 2^32 - 1 accepted input lines the uint32
counter wraps, the next transaction request is stamped with the reserved
discovery id 0, and the id sequence is not strictly increasing. -/
theorem C8_monotone_ids_counterexample :
    requestIdOfLine (U32 - 1) = 0 ∧
    requestIdOfLine 0 = 1 ∧
    ¬ requestIdOfLine 0 < requestIdOfLine (U32 - 1) := by
  unfold requestIdOfLine
  rw [nextIdAfterLines_eq, nextIdAfterLines_eq]
  norm_num [U32]

/-- C8 (amended): request ids follow 1, 2, 3, ... modulo 2^32: the id of
line n is n + 1 as long as that fits a uint32, so over the first 2^32 - 1
accepted lines the ids are strictly increasing and never 0; the counter
wraps to 0 only after 2^32 - 1 accepted lines. -/
theorem C8_monotone_request_ids :
    requestIdOfLine 0 = 1 ∧
    (∀ n, n + 1 < U32 → requestIdOfLine n = n + 1) ∧
    (∀ n m, m + 1 < U32 → n < m →
      requestIdOfLine n < requestIdOfLine m) ∧
    (∀ n, n + 1 < U32 → requestIdOfLine n ≠ 0) := by
  have he : ∀ n, n + 1 < U32 → requestIdOfLine n = n + 1 := by
    intro n h
    rw [requestIdOfLine, nextIdAfterLines_eq]
    have h1 : 1 + n < U32 := by omega
    rw [Nat.mod_eq_of_lt h1]
    omega
  refine ⟨?_, he, ?_, ?_⟩
  · have h0 := he 0 (by norm_num [U32])
    simpa using h0
  · intro n m hm hnm
    rw [he n (by omega), he m hm]
    omega
  · intro n h
    rw [he n h]
    omega

/-- Witness for C8 at concrete inputs: lines 0 and 1 get ids 1 and 2. -/
theorem C8_monotone_request_ids_witness :
    (0 + 1 < U32 ∧ 1 + 1 < U32 ∧ 0 < 1) ∧
    requestIdOfLine 0 = 0 + 1 ∧
    requestIdOfLine 0 < requestIdOfLine 1 ∧
    requestIdOfLine 1 ≠ 0 :=
  ⟨⟨by norm_num [U32], by norm_num [U32], by norm_num⟩,
   C8_monotone_request_ids.2.1 0 (by norm_num [U32]),
   C8_monotone_request_ids.2.2.1 0 1 (by norm_num [U32]) (by norm_num),
   C8_monotone_request_ids.2.2.2 1 (by norm_num [U32])⟩

-- ===== Server command-line port parsing =====

/-- Longest run of decimal digits at the front of the character list, as
consumed by std::stoi. -/
def leadingDigits : List Char → List Nat
  | [] => []
  | ch :: rest =>
      if ch.isDigit then (ch.toNat - 48) :: leadingDigits rest
      else []

def digitsToNat (ds : List Nat) : Nat :=
  ds.foldl (fun acc d => 10 * acc + d) 0

/-- Optional leading sign, as consumed by std::stoi. -/
def signSplit : List Char → Int × List Char
  | '-' :: rest => (-1, rest)
  | '+' :: rest => (1, rest)
  | cs => (1, cs)

/-- Model of the std::stoi call in `src/server/main.cpp` line 20: skip
leading spaces, read an optional sign and the longest run of decimal
digits; the call throws (modelled as none) when no digit is present
(invalid_argument) or the value does not fit a 32-bit int
(out_of_range). -/
def stoiModel (s : String) : Option Int :=
  let cs := s.data.dropWhile (fun ch => ch = ' ')
  let sc := signSplit cs
  let ds := leadingDigits sc.2
  if ds = [] then none
  else
    let v : Int := sc.1 * (digitsToNat ds : Int)
    if v < -(2 ^ 31) ∨ (2 ^ 31) - 1 < v then none else some v

/-- Outcome of the server executable's argument handling: exit with a
non-zero status, or run the server bound to the given port. -/
inductive ServerMainResult where
  | exitFailure
  | runServer (port : Nat)
deriving DecidableEq, Repr

/-- `main` of `src/server/main.cpp` (lines 11-45): parse the port argument
with std::stoi, cast the result to uint16_t (`static_cast<uint16_t>`,
i.e. reduction modulo 65536), exit non-zero when parsing threw or the
cast value is 0, otherwise run the server on that port. -/
def serverMain (arg : String) : ServerMainResult :=
  match stoiModel arg with
  | none => ServerMainResult.exitFailure
  | some v =>
      let port := (v % 65536).toNat
      if port = 0 then ServerMainResult.exitFailure
      else ServerMainResult.runServer port

/-- C9: the port range check is defeated by the uint16_t cast. The
argument "65537" denotes the integer 65537, which is outside 1-65535, yet
the server does not exit non-zero: the cast truncates it to port 1 (which
passes the port != 0 check) and the server binds port 1. Likewise "-1" is
truncated to port 65535. In-range arguments ("8080") are taken verbatim,
and "0" or non-numeric arguments do exit non-zero. -/
theorem C9_port_parse_truncation :
    stoiModel "65537" = some 65537 ∧
    serverMain "65537" = ServerMainResult.runServer 1 ∧
    stoiModel "-1" = some (-1) ∧
    serverMain "-1" = ServerMainResult.runServer 65535 ∧
    serverMain "8080" = ServerMainResult.runServer 8080 ∧
    serverMain "0" = ServerMainResult.exitFailure ∧
    serverMain "abc" = ServerMainResult.exitFailure := by
  decide
